import Mathlib

/-!
Shallow embedding of the gochat repository (zembrodt/gochat).

The Go source keeps two shared registries: an `AddrMap` from username to
network address and a `GroupMap` from group name to `Group` (owner plus a
string set of members).  Go's `map[string]T` is modelled as an association
list whose insert operations only ever insert a key that is absent, exactly
as the source's check-then-insert pattern does; lookups take the first
matching entry.  The member string set (`strset.AtomicStringSet`, a
`map[string]bool`) is modelled as a `List String` whose add is guarded by a
containment check, mirroring the idempotent map write.

Network sends are side effects; they are modelled as event lists (the
messages a handler hands to the transport), and the fan-out error channel of
`Server.SendGroupMsg` as the list of error events together with a Boolean
recording that the channel was closed at the end of the routine.  Field and
method names follow the Go source (`User`, `To`, `Msg`, `Cmd`, `Get`, `Add`,
`AddUser`, ...).
-/

namespace Gochat

/-- A wire message, `Msg` in gochat.go: sender, target, body text, command. -/
structure Msg where
  User : String
  To : String
  Msg : String
  Cmd : String
deriving DecidableEq, Repr

/-- `Addr` from gochat.go: a host and a port. -/
structure Addr where
  Address : String
  Port : String
deriving DecidableEq, Repr

/-- `Addr.String()` from gochat.go: "host:port". -/
def Addr.render (a : Addr) : String := a.Address ++ ":" ++ a.Port

/-- `strset.StringSet.Add`: writes the key (a no-op when present) and returns
whether the element was new. -/
def setAdd (s : List String) (x : String) : List String × Bool :=
  if s.contains x then (s, false) else (x :: s, true)

/-- `strset.StringSet.Remove`: deletes the key from the map. -/
def setRemove (s : List String) (x : String) : List String :=
  s.filter (fun y => y != x)

/-- `Group` from gochat.go: an owner and the member set. -/
structure Group where
  Owner : String
  Users : List String
deriving DecidableEq, Repr

/-- `AddrMap`'s underlying `map[string]Addr`. -/
abbrev AddrMap := List (String × Addr)

/-- `GroupMap`'s underlying `map[string]Group`. -/
abbrev GroupMap := List (String × Group)

/-- Go map lookup: the value stored under a key, if any. -/
def lookupKey {α : Type} : List (String × α) → String → Option α
  | [], _ => none
  | (k, v) :: rest, key => if k == key then some v else lookupKey rest key

/-- `AddrMap.Get`. -/
def AddrMap.Get (m : AddrMap) (user : String) : Option Addr :=
  lookupKey m user

/-- `AddrMap.Add`: insert unless the user already exists, returning whether
the insert happened. -/
def AddrMap.Add (m : AddrMap) (user : String) (addr : Addr) : AddrMap × Bool :=
  if (lookupKey m user).isSome then (m, false) else ((user, addr) :: m, true)

/-- `AddrMap.Remove`: delete the user if present, returning whether they were
present. -/
def AddrMap.Remove (m : AddrMap) (user : String) : AddrMap × Bool :=
  if (lookupKey m user).isSome then (m.filter (fun p => p.1 != user), true)
  else (m, false)

/-- `GroupMap.Get`. -/
def GroupMap.Get (m : GroupMap) (group : String) : Option Group :=
  lookupKey m group

/-- Update the group stored under a key in place (the Go source mutates
`groupMap.v[group].Users` through the shared set pointer). -/
def mapAtKey (m : GroupMap) (k : String) (f : Group → Group) : GroupMap :=
  m.map (fun p => if p.1 == k then (p.1, f p.2) else p)

/-- `GroupMap.AddUser`: `ok` is "group exists and user not yet a member";
only then is the user added to the group's set. -/
def GroupMap.AddUser (m : GroupMap) (group user : String) : GroupMap × Bool :=
  match lookupKey m group with
  | some grp =>
    if grp.Users.contains user then (m, false)
    else (mapAtKey m group (fun g => { g with Users := (setAdd g.Users user).1 }), true)
  | none => (m, false)

/-- `GroupMap.RemoveUser`: `ok` is "group exists and user is a member"; only
then is the user removed from the group's set. -/
def GroupMap.RemoveUser (m : GroupMap) (group user : String) : GroupMap × Bool :=
  match lookupKey m group with
  | some grp =>
    if grp.Users.contains user then
      (mapAtKey m group (fun g => { g with Users := setRemove g.Users user }), true)
    else (m, false)
  | none => (m, false)

/-- `GroupMap.ContainsUser`: (is the user a member, does the group exist). -/
def GroupMap.ContainsUser (m : GroupMap) (group user : String) : Bool × Bool :=
  match lookupKey m group with
  | some grp => (grp.Users.contains user, true)
  | none => (false, false)

/-- `GroupMap.Create`: insert the group with the given owner and an empty
member set unless it already exists. -/
def GroupMap.Create (m : GroupMap) (group owner : String) : GroupMap × Bool :=
  if (lookupKey m group).isSome then (m, false)
  else ((group, ⟨owner, []⟩) :: m, true)

/-- `GroupMap.Delete`: remove the group if present. -/
def GroupMap.Delete (m : GroupMap) (group : String) : GroupMap × Bool :=
  if (lookupKey m group).isSome then (m.filter (fun p => p.1 != group), true)
  else (m, false)

/-- `GroupMap.GroupNames`: the keys of the map. -/
def GroupMap.GroupNames (m : GroupMap) : List String :=
  m.map Prod.fst

end Gochat

namespace Gochat

/-! Basic lemmas about the association-list registries. -/

/-- Looking a key up after deleting it yields nothing. -/
theorem lookupKey_filter_ne {α : Type} (m : List (String × α)) (k : String) :
    lookupKey (m.filter (fun p => p.1 != k)) k = none := by
  induction m with
  | nil => rfl
  | cons hd tl ih =>
    obtain ⟨a, v⟩ := hd
    by_cases h : a = k
    · simpa [List.filter_cons, h] using ih
    · simpa [List.filter_cons, h, lookupKey] using ih

/-- A present key is among the map's keys. -/
theorem lookupKey_mem_fst {α : Type} {m : List (String × α)} {k : String} {v : α}
    (h : lookupKey m k = some v) : k ∈ m.map Prod.fst := by
  induction m with
  | nil => simp [lookupKey] at h
  | cons hd tl ih =>
    obtain ⟨a, w⟩ := hd
    by_cases hk : a = k
    · simp [hk]
    · simp only [lookupKey, beq_iff_eq, hk, if_false] at h
      simp [ih h]

/-- Unfolding lookup over a cons cell whose key matches. -/
theorem lookupKey_cons_eq {α : Type} (a : String) (v : α) (tl : List (String × α))
    (key : String) (h : a = key) : lookupKey ((a, v) :: tl) key = some v := by
  simp [lookupKey, h]

/-- Unfolding lookup over a cons cell whose key differs. -/
theorem lookupKey_cons_ne {α : Type} (a : String) (v : α) (tl : List (String × α))
    (key : String) (h : ¬ a = key) : lookupKey ((a, v) :: tl) key = lookupKey tl key := by
  simp [lookupKey, h]

/-- Unfolding the in-place update over a cons cell whose key matches. -/
theorem mapAtKey_cons_eq (a : String) (v : Group) (tl : GroupMap) (k : String)
    (f : Group → Group) (h : a = k) :
    mapAtKey ((a, v) :: tl) k f = (a, f v) :: mapAtKey tl k f := by
  simp [mapAtKey, h]

/-- Unfolding the in-place update over a cons cell whose key differs. -/
theorem mapAtKey_cons_ne (a : String) (v : Group) (tl : GroupMap) (k : String)
    (f : Group → Group) (h : ¬ a = k) :
    mapAtKey ((a, v) :: tl) k f = (a, v) :: mapAtKey tl k f := by
  simp [mapAtKey, h]

/-- Lookup after an in-place update: the stored group is transformed exactly
at the updated key. -/
theorem lookupKey_mapAtKey (m : GroupMap) (k key : String) (f : Group → Group) :
    lookupKey (mapAtKey m k f) key =
      if key = k then (lookupKey m key).map f else lookupKey m key := by
  induction m with
  | nil => simp [mapAtKey, lookupKey]
  | cons hd tl ih =>
    obtain ⟨a, v⟩ := hd
    by_cases h1 : a = k
    · rw [mapAtKey_cons_eq a v tl k f h1]
      by_cases h2 : a = key
      · rw [lookupKey_cons_eq a (f v) _ key h2, lookupKey_cons_eq a v tl key h2]
        rw [if_pos (h2 ▸ h1 : key = k)]
        rfl
      · rw [lookupKey_cons_ne a (f v) _ key h2, lookupKey_cons_ne a v tl key h2, ih]
    · rw [mapAtKey_cons_ne a v tl k f h1]
      by_cases h2 : a = key
      · have hkk : ¬ key = k := fun hc => h1 (h2.trans hc)
        rw [lookupKey_cons_eq a v _ key h2, lookupKey_cons_eq a v tl key h2, if_neg hkk]
      · rw [lookupKey_cons_ne a v _ key h2, lookupKey_cons_ne a v tl key h2, ih]

/-- A deleted element is no longer contained in a list. -/
theorem contains_filter_ne (l : List String) (u : String) :
    (l.filter (fun y => y != u)).contains u = false := by
  have hmem : u ∉ l.filter (fun y => y != u) := by
    intro hmem
    have := List.of_mem_filter hmem
    simp at this
  simp [hmem]

/-- After `AddUser` of `u` into an existing group, the group contains `u`. -/
theorem AddUser_sets_membership (m : GroupMap) (g u : String)
    (h : (lookupKey m g).isSome = true) :
    GroupMap.ContainsUser (GroupMap.AddUser m g u).1 g u = (true, true) := by
  obtain ⟨grp, hg⟩ := Option.isSome_iff_exists.mp h
  by_cases hc : u ∈ grp.Users
  · simp [GroupMap.AddUser, hg, hc, GroupMap.ContainsUser]
  · simp [GroupMap.AddUser, hg, hc, GroupMap.ContainsUser, lookupKey_mapAtKey, setAdd]

/-- After `RemoveUser`, the group no longer contains the user. -/
theorem RemoveUser_clears_membership (m : GroupMap) (g u : String) :
    (GroupMap.ContainsUser (GroupMap.RemoveUser m g u).1 g u).1 = false := by
  cases hg : lookupKey m g with
  | none => simp [GroupMap.RemoveUser, hg, GroupMap.ContainsUser]
  | some grp =>
    by_cases hc : u ∈ grp.Users
    · simp [GroupMap.RemoveUser, hg, hc, GroupMap.ContainsUser, lookupKey_mapAtKey,
        setRemove, contains_filter_ne]
    · simp [GroupMap.RemoveUser, hg, hc, GroupMap.ContainsUser]

end Gochat

namespace Gochat

/-- C5: creating a fresh group succeeds with the requested owner and an empty
member set, and a second create of the same name fails and changes nothing. -/
theorem Create_once_then_reject (m : GroupMap) (g a b : String)
    (h : GroupMap.Get m g = none) :
    GroupMap.Create m g a = ((g, ⟨a, []⟩) :: m, true) ∧
    GroupMap.Get (GroupMap.Create m g a).1 g = some ⟨a, []⟩ ∧
    GroupMap.Create (GroupMap.Create m g a).1 g b = ((GroupMap.Create m g a).1, false) := by
  have h0 : lookupKey m g = none := h
  refine ⟨?_, ?_, ?_⟩
  · simp [GroupMap.Create, h0]
  · simp [GroupMap.Create, h0, GroupMap.Get, lookupKey]
  · simp [GroupMap.Create, h0, lookupKey]

/-- Witness for C5 at a concrete registry. -/
theorem Create_once_then_reject_witness :
    GroupMap.Create [] "g" "alice" = ([("g", ⟨"alice", []⟩)], true) ∧
    GroupMap.Get (GroupMap.Create [] "g" "alice").1 "g" = some ⟨"alice", []⟩ ∧
    GroupMap.Create (GroupMap.Create [] "g" "alice").1 "g" "bob" =
      ((GroupMap.Create [] "g" "alice").1, false) :=
  Create_once_then_reject [] "g" "alice" "bob" rfl

/-- C6: `AddUser` is idempotent in the claimed sense — for an existing group
and a fresh user the first call returns true, the second false, membership
reads true after each; it returns false when the group is missing or the user
already a member, and it returns true only on a genuine new membership. -/
theorem AddUser_idempotent (m : GroupMap) (g u : String) :
    (∀ grp, GroupMap.Get m g = some grp → grp.Users.contains u = false →
      (GroupMap.AddUser m g u).2 = true ∧
      (GroupMap.ContainsUser (GroupMap.AddUser m g u).1 g u).1 = true ∧
      (GroupMap.AddUser (GroupMap.AddUser m g u).1 g u).2 = false ∧
      (GroupMap.ContainsUser
        (GroupMap.AddUser (GroupMap.AddUser m g u).1 g u).1 g u).1 = true) ∧
    (GroupMap.Get m g = none → GroupMap.AddUser m g u = (m, false)) ∧
    (∀ grp, GroupMap.Get m g = some grp → grp.Users.contains u = true →
      GroupMap.AddUser m g u = (m, false)) ∧
    ((GroupMap.AddUser m g u).2 = true →
      ∃ grp, GroupMap.Get m g = some grp ∧ grp.Users.contains u = false) := by
  refine ⟨?_, ?_, ?_, ?_⟩
  · intro grp hg hc
    have hg0 : lookupKey m g = some grp := hg
    have hcm : u ∉ grp.Users := by simpa using hc
    have hs : (lookupKey m g).isSome = true := by simp [hg0]
    have h1 : GroupMap.ContainsUser (GroupMap.AddUser m g u).1 g u = (true, true) :=
      AddUser_sets_membership m g u hs
    obtain ⟨grp1, hg1, hcon1⟩ :
        ∃ grp1, lookupKey (GroupMap.AddUser m g u).1 g = some grp1 ∧
          grp1.Users.contains u = true := by
      cases hl : lookupKey (GroupMap.AddUser m g u).1 g with
      | none => simp [GroupMap.ContainsUser, hl] at h1
      | some grp1 =>
        refine ⟨grp1, rfl, ?_⟩
        simpa [GroupMap.ContainsUser, hl] using congrArg Prod.fst h1
    have hcm1 : u ∈ grp1.Users := by simpa using hcon1
    have hstep : ∀ m1 : GroupMap, lookupKey m1 g = some grp1 →
        GroupMap.AddUser m1 g u = (m1, false) := by
      intro m1 hl
      simp [GroupMap.AddUser, hl, hcm1]
    refine ⟨?_, ?_, ?_, ?_⟩
    · simp [GroupMap.AddUser, hg0, hcm]
    · simp [h1]
    · rw [hstep _ hg1]
    · rw [hstep _ hg1]
      simp [h1]
  · intro hg
    simp [GroupMap.AddUser, show lookupKey m g = none from hg]
  · intro grp hg hc
    have hcm : u ∈ grp.Users := by simpa using hc
    simp [GroupMap.AddUser, show lookupKey m g = some grp from hg, hcm]
  · intro hok
    cases hg : lookupKey m g with
    | none => simp [GroupMap.AddUser, hg] at hok
    | some grp =>
      by_cases hc : u ∈ grp.Users
      · simp [GroupMap.AddUser, hg, hc] at hok
      · exact ⟨grp, hg, by simpa using hc⟩

/-- Witness for C6 at a concrete registry. -/
theorem AddUser_idempotent_witness :
    (GroupMap.AddUser [("g", ⟨"o", []⟩)] "g" "u").2 = true ∧
    (GroupMap.ContainsUser (GroupMap.AddUser [("g", ⟨"o", []⟩)] "g" "u").1 "g" "u").1 = true ∧
    (GroupMap.AddUser (GroupMap.AddUser [("g", ⟨"o", []⟩)] "g" "u").1 "g" "u").2 = false ∧
    (GroupMap.ContainsUser
      (GroupMap.AddUser (GroupMap.AddUser [("g", ⟨"o", []⟩)] "g" "u").1 "g" "u").1
      "g" "u").1 = true :=
  (AddUser_idempotent [("g", ⟨"o", []⟩)] "g" "u").1 ⟨"o", []⟩ rfl rfl

/-- C7: removing a non-member from an existing group, or any user from a
missing group, returns false and leaves the whole registry unchanged. -/
theorem RemoveUser_nonmember_frame (m : GroupMap) (g u : String) :
    (∀ grp, GroupMap.Get m g = some grp → grp.Users.contains u = false →
      GroupMap.RemoveUser m g u = (m, false)) ∧
    (GroupMap.Get m g = none → GroupMap.RemoveUser m g u = (m, false)) := by
  constructor
  · intro grp hg hc
    have hcm : u ∉ grp.Users := by simpa using hc
    simp [GroupMap.RemoveUser, show lookupKey m g = some grp from hg, hcm]
  · intro hg
    simp [GroupMap.RemoveUser, show lookupKey m g = none from hg]

/-- Witness for C7 at a concrete registry. -/
theorem RemoveUser_nonmember_frame_witness :
    GroupMap.RemoveUser [("g", ⟨"o", ["a"]⟩)] "g" "b" = ([("g", ⟨"o", ["a"]⟩)], false) :=
  (RemoveUser_nonmember_frame [("g", ⟨"o", ["a"]⟩)] "g" "b").1 ⟨"o", ["a"]⟩ rfl rfl

end Gochat

namespace Gochat

/-! Server state and the `init` / `disconnect` handlers (svr/svr.go). -/

/-- The two shared registries of `svr.Server`. -/
structure ServerState where
  Addrs : AddrMap
  Groups : GroupMap
deriving DecidableEq, Repr

/-- The `init` arm of `Server.HandleRequest`: if the sender is unknown,
register its observed remote endpoint, reply with that endpoint's port and
auto-join the "global" group (creating it on demand); otherwise reply with
the sentinel "alreadyExists" and change nothing. -/
def handleInit (st : ServerState) (m : Msg) (remote : Addr) : ServerState × String :=
  match AddrMap.Get st.Addrs m.User with
  | none =>
    let addrs1 := (AddrMap.Add st.Addrs m.User remote).1
    let groups1 :=
      if (GroupMap.AddUser st.Groups "global" m.User).2 then
        (GroupMap.AddUser st.Groups "global" m.User).1
      else
        (GroupMap.AddUser (GroupMap.Create st.Groups "global" "").1 "global" m.User).1
    (⟨addrs1, groups1⟩, remote.Port)
  | some _ => (st, "alreadyExists")

/-- The loop body of the `disconnect` arm: walk the snapshot of group names,
remove the user from each group that contains them, and record the `leave`
broadcast handed to `SendGroupMsg` for that group. -/
def purgeUser (u : String) : List String → GroupMap → GroupMap × List Msg
  | [], g => (g, [])
  | n :: rest, g =>
    if (GroupMap.ContainsUser g n u).1 then
      let g1 := (GroupMap.RemoveUser g n u).1
      let res := purgeUser u rest g1
      (res.1, ⟨u, n, u ++ " has left the group.", "leave"⟩ :: res.2)
    else purgeUser u rest g

/-- The `disconnect` arm of `Server.HandleRequest`: if the sender is
registered, drop their endpoint and purge them from every group, collecting
the broadcasts; otherwise do nothing. -/
def HandleDisconnect (st : ServerState) (u : String) : ServerState × List Msg :=
  if (AddrMap.Remove st.Addrs u).2 then
    (⟨(AddrMap.Remove st.Addrs u).1,
      (purgeUser u (GroupMap.GroupNames st.Groups) st.Groups).1⟩,
      (purgeUser u (GroupMap.GroupNames st.Groups) st.Groups).2)
  else (st, [])

/-! Client cache update (clnt/clnt.go, `Client.HandleResponse`). -/

/-- `Client.HandleResponse`: the cache update applied to `MyGroups` for an
inbound record, and whether the record's body is surfaced (printed). -/
def HandleResponse (username : String) (myGroups : GroupMap) (response : Msg) :
    GroupMap × Bool :=
  let cache :=
    if response.User == username then
      if response.Cmd == "leave" || response.Cmd == "delete" then
        (GroupMap.Delete myGroups response.To).1
      else if response.Cmd == "create" || response.Cmd == "join" then
        (GroupMap.AddUser (GroupMap.Create myGroups response.To "").1
          response.To response.User).1
      else myGroups
    else
      if response.Cmd == "leave" || response.Cmd == "kick" then
        (GroupMap.RemoveUser myGroups response.To response.User).1
      else if response.Cmd == "delete" then
        (GroupMap.Delete myGroups response.To).1
      else if response.Cmd == "join" then
        (GroupMap.AddUser myGroups response.To response.User).1
      else myGroups
  (cache, response.Msg != "")

end Gochat

namespace Gochat

/-- Deleting a group makes it absent. -/
theorem Delete_get_none (m : GroupMap) (g : String) :
    GroupMap.Get (GroupMap.Delete m g).1 g = none := by
  by_cases h : (lookupKey m g).isSome = true
  · simp [GroupMap.Delete, h, GroupMap.Get, lookupKey_filter_ne]
  · have h0 : lookupKey m g = none := by
      cases hl : lookupKey m g with
      | none => rfl
      | some v => rw [hl] at h; simp at h
    simp [GroupMap.Delete, h0, GroupMap.Get]

/-- After `Create`, the group is present. -/
theorem Create_isSome (m : GroupMap) (g o : String) :
    (lookupKey (GroupMap.Create m g o).1 g).isSome = true := by
  by_cases h : (lookupKey m g).isSome = true
  · simp [GroupMap.Create, h]
  · have h0 : lookupKey m g = none := by
      cases hl : lookupKey m g with
      | none => rfl
      | some v => rw [hl] at h; simp at h
    simp [GroupMap.Create, h0, lookupKey]

/-- `RemoveUser` on one group does not change membership reads on another. -/
theorem ContainsUser_RemoveUser_other (g : GroupMap) (n k u : String) (h : ¬ k = n) :
    GroupMap.ContainsUser (GroupMap.RemoveUser g n u).1 k u =
      GroupMap.ContainsUser g k u := by
  cases hg : lookupKey g n with
  | none => simp [GroupMap.RemoveUser, hg]
  | some grp =>
    by_cases hc : u ∈ grp.Users
    · simp [GroupMap.RemoveUser, hg, hc, GroupMap.ContainsUser, lookupKey_mapAtKey, h]
    · simp [GroupMap.RemoveUser, hg, hc]

/-- Purging a user over a list of names covering every group that contains
them leaves them a member of no group. -/
theorem purgeUser_clears (u : String) (names : List String) (g : GroupMap)
    (h : ∀ k, (GroupMap.ContainsUser g k u).1 = true → k ∈ names) :
    ∀ k, (GroupMap.ContainsUser (purgeUser u names g).1 k u).1 = false := by
  induction names generalizing g with
  | nil =>
    intro k
    cases hc : (GroupMap.ContainsUser g k u).1 with
    | false => simpa [purgeUser] using hc
    | true => exact absurd (h k hc) (List.not_mem_nil k)
  | cons n rest ih =>
    intro k
    by_cases hcn : (GroupMap.ContainsUser g n u).1 = true
    · have hres : (purgeUser u (n :: rest) g).1 =
          (purgeUser u rest (GroupMap.RemoveUser g n u).1).1 := by
        simp [purgeUser, hcn]
      rw [hres]
      refine ih (GroupMap.RemoveUser g n u).1 ?_ k
      intro k2 hk2
      by_cases hk2n : k2 = n
      · rw [hk2n, RemoveUser_clears_membership] at hk2
        exact absurd hk2 (by simp)
      · rw [ContainsUser_RemoveUser_other g n k2 u hk2n] at hk2
        rcases List.mem_cons.mp (h k2 hk2) with h1 | h1
        · exact absurd h1 hk2n
        · exact h1
    · have hcn0 : (GroupMap.ContainsUser g n u).1 = false := by
        cases hl : (GroupMap.ContainsUser g n u).1 with
        | false => rfl
        | true => exact absurd hl hcn
      have hres : (purgeUser u (n :: rest) g).1 = (purgeUser u rest g).1 := by
        simp [purgeUser, hcn0]
      rw [hres]
      refine ih g ?_ k
      intro k2 hk2
      rcases List.mem_cons.mp (h k2 hk2) with h1 | h1
      · rw [h1] at hk2
        rw [hk2] at hcn0
        exact absurd hcn0 (by simp)
      · exact h1

/-- C8: after handling a `disconnect` from a registered user, their endpoint
is gone from the address registry and they are a member of no group. -/
theorem disconnect_purges_user (st : ServerState) (u : String) (a : Addr)
    (h : AddrMap.Get st.Addrs u = some a) :
    AddrMap.Get (HandleDisconnect st u).1.Addrs u = none ∧
    ∀ g, (GroupMap.ContainsUser (HandleDisconnect st u).1.Groups g u).1 = false := by
  have h0 : lookupKey st.Addrs u = some a := h
  have hsome : (lookupKey st.Addrs u).isSome = true := by simp [h0]
  have hrem : AddrMap.Remove st.Addrs u =
      (st.Addrs.filter (fun p => p.1 != u), true) := by
    simp [AddrMap.Remove, hsome]
  constructor
  · simp [HandleDisconnect, hrem, AddrMap.Get, lookupKey_filter_ne]
  · intro g
    have hres : (HandleDisconnect st u).1.Groups =
        (purgeUser u (GroupMap.GroupNames st.Groups) st.Groups).1 := by
      simp [HandleDisconnect, hrem]
    rw [hres]
    refine purgeUser_clears u (GroupMap.GroupNames st.Groups) st.Groups ?_ g
    intro k hk
    cases hl : lookupKey st.Groups k with
    | none => simp [GroupMap.ContainsUser, hl] at hk
    | some grp => exact lookupKey_mem_fst hl

/-- Witness for C8 at a concrete server state. -/
theorem disconnect_purges_user_witness :
    AddrMap.Get
      (HandleDisconnect ⟨[("a", ⟨"127.0.0.1", "9001"⟩)], [("global", ⟨"", ["a"]⟩)]⟩ "a").1.Addrs
      "a" = none ∧
    (GroupMap.ContainsUser
      (HandleDisconnect ⟨[("a", ⟨"127.0.0.1", "9001"⟩)], [("global", ⟨"", ["a"]⟩)]⟩ "a").1.Groups
      "global" "a").1 = false :=
  ⟨(disconnect_purges_user ⟨[("a", ⟨"127.0.0.1", "9001"⟩)], [("global", ⟨"", ["a"]⟩)]⟩
      "a" ⟨"127.0.0.1", "9001"⟩ rfl).1,
   (disconnect_purges_user ⟨[("a", ⟨"127.0.0.1", "9001"⟩)], [("global", ⟨"", ["a"]⟩)]⟩
      "a" ⟨"127.0.0.1", "9001"⟩ rfl).2 "global"⟩

/-- C10: a `disconnect` from an unregistered user is a complete no-op:
`AddrMap.Remove` returns false without mutation, the registries are
untouched and no broadcast is handed to the transport. -/
theorem disconnect_unregistered_noop (st : ServerState) (u : String)
    (h : AddrMap.Get st.Addrs u = none) :
    AddrMap.Remove st.Addrs u = (st.Addrs, false) ∧
    HandleDisconnect st u = (st, []) := by
  have h0 : lookupKey st.Addrs u = none := h
  have hrem : AddrMap.Remove st.Addrs u = (st.Addrs, false) := by
    simp [AddrMap.Remove, h0]
  exact ⟨hrem, by simp [HandleDisconnect, hrem]⟩

/-- Witness for C10 at a concrete server state. -/
theorem disconnect_unregistered_noop_witness :
    HandleDisconnect ⟨[], [("global", ⟨"", ["b"]⟩)]⟩ "a" =
      (⟨[], [("global", ⟨"", ["b"]⟩)]⟩, []) :=
  (disconnect_unregistered_noop ⟨[], [("global", ⟨"", ["b"]⟩)]⟩ "a" rfl).2

end Gochat

namespace Gochat

/-- C1: an `init` from an unknown username registers the observed endpoint
under that username and replies with its port; an `init` from a known
username replies with the sentinel "alreadyExists" and leaves the address
registry untouched. -/
theorem init_registers_once (st : ServerState) (m : Msg) (remote : Addr) :
    (AddrMap.Get st.Addrs m.User = none →
      (handleInit st m remote).2 = remote.Port ∧
      AddrMap.Get (handleInit st m remote).1.Addrs m.User = some remote) ∧
    (∀ a, AddrMap.Get st.Addrs m.User = some a →
      (handleInit st m remote).2 = "alreadyExists" ∧
      (handleInit st m remote).1.Addrs = st.Addrs) := by
  constructor
  · intro h
    have h0 : lookupKey st.Addrs m.User = none := h
    constructor
    · simp [handleInit, AddrMap.Get, h0]
    · simp [handleInit, AddrMap.Get, h0, AddrMap.Add, lookupKey]
  · intro a h
    have h0 : lookupKey st.Addrs m.User = some a := h
    constructor
    · simp [handleInit, AddrMap.Get, h0]
    · simp [handleInit, AddrMap.Get, h0]

/-- Witness for C1 at a concrete server state. -/
theorem init_registers_once_witness :
    (handleInit ⟨[], []⟩ ⟨"a", "", "", "init"⟩ ⟨"127.0.0.1", "9001"⟩).2 = "9001" ∧
    AddrMap.Get (handleInit ⟨[], []⟩ ⟨"a", "", "", "init"⟩
      ⟨"127.0.0.1", "9001"⟩).1.Addrs "a" = some ⟨"127.0.0.1", "9001"⟩ :=
  (init_registers_once ⟨[], []⟩ ⟨"a", "", "", "init"⟩ ⟨"127.0.0.1", "9001"⟩).1 rfl

/-- C2: the client's cache update rules, one clause per case of
`Client.HandleResponse`, plus: the body is surfaced exactly when non-empty. -/
theorem HandleResponse_cache_rules (self : String) (cache : GroupMap) (r : Msg) :
    (r.User = self → (r.Cmd = "leave" ∨ r.Cmd = "delete") →
      GroupMap.Get (HandleResponse self cache r).1 r.To = none) ∧
    (r.User = self → (r.Cmd = "create" ∨ r.Cmd = "join") →
      GroupMap.ContainsUser (HandleResponse self cache r).1 r.To self = (true, true)) ∧
    (r.User ≠ self → (r.Cmd = "leave" ∨ r.Cmd = "kick") →
      (GroupMap.ContainsUser (HandleResponse self cache r).1 r.To r.User).1 = false) ∧
    (r.User ≠ self → r.Cmd = "delete" →
      GroupMap.Get (HandleResponse self cache r).1 r.To = none) ∧
    (r.User ≠ self → r.Cmd = "join" → (GroupMap.Get cache r.To).isSome = true →
      GroupMap.ContainsUser (HandleResponse self cache r).1 r.To r.User = (true, true)) ∧
    (r.User = self → r.Cmd ∉ (["leave", "delete", "create", "join"] : List String) →
      (HandleResponse self cache r).1 = cache) ∧
    (r.User ≠ self → r.Cmd ∉ (["leave", "kick", "delete", "join"] : List String) →
      (HandleResponse self cache r).1 = cache) ∧
    ((HandleResponse self cache r).2 = true ↔ r.Msg ≠ "") := by
  refine ⟨?_, ?_, ?_, ?_, ?_, ?_, ?_, ?_⟩
  · intro hu hc
    rcases hc with hc | hc <;>
      simp [HandleResponse, hu, hc, Delete_get_none]
  · intro hu hc
    have hmem : GroupMap.ContainsUser
        (GroupMap.AddUser (GroupMap.Create cache r.To "").1 r.To r.User).1
        r.To r.User = (true, true) :=
      AddUser_sets_membership _ r.To r.User (Create_isSome cache r.To "")
    rcases hc with hc | hc <;>
      simp [HandleResponse, hu, hc] <;> rw [← hu] <;> exact hmem
  · intro hu hc
    rcases hc with hc | hc <;>
      simp [HandleResponse, hu, hc, RemoveUser_clears_membership]
  · intro hu hc
    simp [HandleResponse, hu, hc, Delete_get_none]
  · intro hu hc hg
    have hmem : GroupMap.ContainsUser
        (GroupMap.AddUser cache r.To r.User).1 r.To r.User = (true, true) :=
      AddUser_sets_membership cache r.To r.User hg
    simp [HandleResponse, hu, hc]
    exact hmem
  · intro hu hc
    simp only [List.mem_cons, List.not_mem_nil, or_false, not_or] at hc
    obtain ⟨h1, h2, h3, h4⟩ := hc
    simp [HandleResponse, hu, h1, h2, h3, h4]
  · intro hu hc
    simp only [List.mem_cons, List.not_mem_nil, or_false, not_or] at hc
    obtain ⟨h1, h2, h3, h4⟩ := hc
    simp [HandleResponse, hu, h1, h2, h3, h4]
  · simp [HandleResponse]

/-- Witness for C2 at a concrete cache and record. -/
theorem HandleResponse_cache_rules_witness :
    GroupMap.Get
      (HandleResponse "a" [("g", ⟨"", ["a", "b"]⟩)] ⟨"a", "g", "", "leave"⟩).1 "g" = none ∧
    GroupMap.ContainsUser
      (HandleResponse "a" [] ⟨"a", "h", "", "join"⟩).1 "h" "a" = (true, true) :=
  ⟨(HandleResponse_cache_rules "a" [("g", ⟨"", ["a", "b"]⟩)] ⟨"a", "g", "", "leave"⟩).1
      rfl (Or.inl rfl),
   (HandleResponse_cache_rules "a" [] ⟨"a", "h", "", "join"⟩).2.1 rfl (Or.inr rfl)⟩

end Gochat

namespace Gochat

/-! Fan-out (`Server.SendGroupMsg`, svr/svr.go).  Each loop iteration either
skips the originating sender, pushes the message to a member whose endpoint
resolves, or reports a missing-endpoint error on the channel and continues;
a missing group reports a single error.  The channel is closed at the end in
every case. -/

/-- One observable step of `SendGroupMsg`: a push handed to the transport, a
missing-endpoint error on the channel, or a missing-group error. -/
inductive SendEvent where
  | sent (user : String)
  | errMissing (user : String)
  | errNoGroup (group : String)
deriving DecidableEq, Repr

/-- Whether an event is an error reported on the channel. -/
def SendEvent.isErr : SendEvent → Bool
  | .sent _ => false
  | .errMissing _ => true
  | .errNoGroup _ => true

/-- The member loop of `SendGroupMsg` over the group's member snapshot. -/
def fanout (addrs : AddrMap) (sender : String) : List String → List SendEvent
  | [] => []
  | u :: rest =>
    if u == sender then fanout addrs sender rest
    else if (AddrMap.Get addrs u).isSome then
      SendEvent.sent u :: fanout addrs sender rest
    else SendEvent.errMissing u :: fanout addrs sender rest

/-- `Server.SendGroupMsg`: the events it produces and whether the error
channel is closed when it returns (it always is). -/
def SendGroupMsg (addrs : AddrMap) (groups : GroupMap) (m : Msg) :
    List SendEvent × Bool :=
  match GroupMap.Get groups m.To with
  | some grp => (fanout addrs m.User grp.Users, true)
  | none => ([SendEvent.errNoGroup m.To], true)

/-- When every non-sender member's endpoint resolves, the fan-out reports no
error and pushes to every non-sender member. -/
theorem fanout_all_ok (addrs : AddrMap) (sender : String) (users : List String)
    (h : ∀ u ∈ users, u ≠ sender → (AddrMap.Get addrs u).isSome = true) :
    (fanout addrs sender users).countP SendEvent.isErr = 0 ∧
    ∀ u ∈ users, u ≠ sender → SendEvent.sent u ∈ fanout addrs sender users := by
  induction users with
  | nil => simp [fanout]
  | cons v rest ih =>
    have hrest := ih (fun u hu hne => h u (List.mem_cons_of_mem v hu) hne)
    by_cases hv : v = sender
    · have hfan : fanout addrs sender (v :: rest) = fanout addrs sender rest := by
        simp [fanout, hv]
      refine ⟨by rw [hfan]; exact hrest.1, ?_⟩
      intro u hu hne
      rcases List.mem_cons.mp hu with h1 | h1
      · exact absurd (h1.trans hv) hne
      · rw [hfan]; exact hrest.2 u h1 hne
    · have hs : (AddrMap.Get addrs v).isSome = true := h v (List.mem_cons_self v rest) hv
      have hfan : fanout addrs sender (v :: rest) =
          SendEvent.sent v :: fanout addrs sender rest := by
        simp [fanout, hv, hs]
      refine ⟨?_, ?_⟩
      · rw [hfan]
        simp [List.countP_cons, SendEvent.isErr, hrest.1]
      · intro u hu hne
        rcases List.mem_cons.mp hu with h1 | h1
        · rw [hfan, h1]; exact List.mem_cons_self _ _
        · rw [hfan]; exact List.mem_cons_of_mem _ (hrest.2 u h1 hne)

/-- When exactly one non-sender member's endpoint is missing, the fan-out
reports exactly one error, reports it for that member, and still pushes to
every other non-sender member. -/
theorem fanout_one_missing (addrs : AddrMap) (sender : String) (users : List String)
    (u0 : String) (hnd : users.Nodup) (hmem : u0 ∈ users) (hne : u0 ≠ sender)
    (hmiss : AddrMap.Get addrs u0 = none)
    (hok : ∀ u ∈ users, u ≠ u0 → u ≠ sender → (AddrMap.Get addrs u).isSome = true) :
    (fanout addrs sender users).countP SendEvent.isErr = 1 ∧
    SendEvent.errMissing u0 ∈ fanout addrs sender users ∧
    ∀ u ∈ users, u ≠ sender → u ≠ u0 → SendEvent.sent u ∈ fanout addrs sender users := by
  induction users with
  | nil => exact absurd hmem (List.not_mem_nil u0)
  | cons v rest ih =>
    obtain ⟨hvnotin, hndrest⟩ := List.nodup_cons.mp hnd
    by_cases hv : v = sender
    · have hfan : fanout addrs sender (v :: rest) = fanout addrs sender rest := by
        simp [fanout, hv]
      have hu0rest : u0 ∈ rest := by
        rcases List.mem_cons.mp hmem with h1 | h1
        · exact absurd (h1.trans hv) hne
        · exact h1
      have hres := ih hndrest hu0rest
        (fun u hu hnu0 hns => hok u (List.mem_cons_of_mem v hu) hnu0 hns)
      refine ⟨by rw [hfan]; exact hres.1, by rw [hfan]; exact hres.2.1, ?_⟩
      intro u hu hns hnu0
      rcases List.mem_cons.mp hu with h1 | h1
      · exact absurd (h1.trans hv) hns
      · rw [hfan]; exact hres.2.2 u h1 hns hnu0
    · by_cases hvu0 : v = u0
      · subst hvu0
        have hfan : fanout addrs sender (v :: rest) =
            SendEvent.errMissing v :: fanout addrs sender rest := by
          simp [fanout, hv, hmiss]
        have hallok : ∀ u ∈ rest, u ≠ sender → (AddrMap.Get addrs u).isSome = true := by
          intro u hu hns
          have hnu0 : u ≠ v := fun hc => hvnotin (hc ▸ hu)
          exact hok u (List.mem_cons_of_mem v hu) hnu0 hns
        have hrest := fanout_all_ok addrs sender rest hallok
        refine ⟨?_, ?_, ?_⟩
        · rw [hfan]
          simp [List.countP_cons, SendEvent.isErr, hrest.1]
        · rw [hfan]; exact List.mem_cons_self _ _
        · intro u hu hns hnu0
          rcases List.mem_cons.mp hu with h1 | h1
          · exact absurd h1 hnu0
          · rw [hfan]; exact List.mem_cons_of_mem _ (hrest.2 u h1 hns)
      · have hs : (AddrMap.Get addrs v).isSome = true :=
          hok v (List.mem_cons_self v rest) hvu0 hv
        have hfan : fanout addrs sender (v :: rest) =
            SendEvent.sent v :: fanout addrs sender rest := by
          simp [fanout, hv, hs]
        have hu0rest : u0 ∈ rest := by
          rcases List.mem_cons.mp hmem with h1 | h1
          · exact absurd h1.symm hvu0
          · exact h1
        have hres := ih hndrest hu0rest
          (fun u hu hnu0 hns => hok u (List.mem_cons_of_mem v hu) hnu0 hns)
        refine ⟨?_, ?_, ?_⟩
        · rw [hfan]
          simp [List.countP_cons, SendEvent.isErr, hres.1]
        · rw [hfan]; exact List.mem_cons_of_mem _ hres.2.1
        · intro u hu hns hnu0
          rcases List.mem_cons.mp hu with h1 | h1
          · rw [hfan, h1]; exact List.mem_cons_self _ _
          · rw [hfan]; exact List.mem_cons_of_mem _ (hres.2.2 u h1 hns hnu0)

/-- C3: broadcasting to an existing group attempts a push for every member
other than the originator; with exactly one member's endpoint missing,
exactly one error is reported, the push to every remaining member is still
attempted, and the channel is closed at the end. -/
theorem SendGroupMsg_partial_failure (addrs : AddrMap) (groups : GroupMap) (m : Msg)
    (grp : Group) (u0 : String)
    (hg : GroupMap.Get groups m.To = some grp)
    (hnd : grp.Users.Nodup)
    (hmem : u0 ∈ grp.Users) (hne : u0 ≠ m.User)
    (hmiss : AddrMap.Get addrs u0 = none)
    (hok : ∀ u ∈ grp.Users, u ≠ u0 → u ≠ m.User → (AddrMap.Get addrs u).isSome = true) :
    (∀ u ∈ grp.Users, u ≠ m.User →
      SendEvent.sent u ∈ (SendGroupMsg addrs groups m).1 ∨
      SendEvent.errMissing u ∈ (SendGroupMsg addrs groups m).1) ∧
    (SendGroupMsg addrs groups m).1.countP SendEvent.isErr = 1 ∧
    SendEvent.errMissing u0 ∈ (SendGroupMsg addrs groups m).1 ∧
    (∀ u ∈ grp.Users, u ≠ m.User → u ≠ u0 →
      SendEvent.sent u ∈ (SendGroupMsg addrs groups m).1) ∧
    (SendGroupMsg addrs groups m).2 = true := by
  have hres := fanout_one_missing addrs m.User grp.Users u0 hnd hmem hne hmiss hok
  have hsg : SendGroupMsg addrs groups m = (fanout addrs m.User grp.Users, true) := by
    simp [SendGroupMsg, hg]
  rw [hsg]
  refine ⟨?_, hres.1, hres.2.1, hres.2.2, rfl⟩
  intro u hu hns
  by_cases hu0 : u = u0
  · rw [hu0]; exact Or.inr hres.2.1
  · exact Or.inl (hres.2.2 u hu hns hu0)

/-- Witness for C3 at a concrete state: "b" has no endpoint, "c" still gets
the push, exactly one error, channel closed. -/
theorem SendGroupMsg_partial_failure_witness :
    (SendGroupMsg [("a", ⟨"127.0.0.1", "9001"⟩), ("c", ⟨"127.0.0.1", "9003"⟩)]
        [("g", ⟨"", ["a", "b", "c"]⟩)] ⟨"a", "g", "hi", "group"⟩).1.countP
      SendEvent.isErr = 1 ∧
    SendEvent.errMissing "b" ∈
      (SendGroupMsg [("a", ⟨"127.0.0.1", "9001"⟩), ("c", ⟨"127.0.0.1", "9003"⟩)]
        [("g", ⟨"", ["a", "b", "c"]⟩)] ⟨"a", "g", "hi", "group"⟩).1 ∧
    SendEvent.sent "c" ∈
      (SendGroupMsg [("a", ⟨"127.0.0.1", "9001"⟩), ("c", ⟨"127.0.0.1", "9003"⟩)]
        [("g", ⟨"", ["a", "b", "c"]⟩)] ⟨"a", "g", "hi", "group"⟩).1 ∧
    (SendGroupMsg [("a", ⟨"127.0.0.1", "9001"⟩), ("c", ⟨"127.0.0.1", "9003"⟩)]
        [("g", ⟨"", ["a", "b", "c"]⟩)] ⟨"a", "g", "hi", "group"⟩).2 = true := by
  have h := SendGroupMsg_partial_failure
    [("a", ⟨"127.0.0.1", "9001"⟩), ("c", ⟨"127.0.0.1", "9003"⟩)]
    [("g", ⟨"", ["a", "b", "c"]⟩)] ⟨"a", "g", "hi", "group"⟩ ⟨"", ["a", "b", "c"]⟩ "b"
    rfl (by decide) (by decide) (by decide) rfl (by decide)
  exact ⟨h.2.1, h.2.2.1, h.2.2.2.1 "c" (by decide) (by decide) (by decide), h.2.2.2.2⟩

end Gochat

namespace Gochat

/-! Per-command response records built by `Server.HandleRequest`
(svr/svr.go).  Each arm shallow-copies the request, blanks `Cmd`, and only
sets a non-empty `Cmd` on the success path.  The returned pair is the
updated group registry and the response sent back to the requester
(`none` for a successful kick, whose response body stays empty and is
therefore not sent). -/

/-- The `join` arm: registry update and response to the sender. -/
def respJoin (groups : GroupMap) (m : Msg) : GroupMap × Msg :=
  if (GroupMap.AddUser groups m.To m.User).2 then
    ((GroupMap.AddUser groups m.To m.User).1,
      { m with Msg := "You have joined the group " ++ m.To ++ ".", Cmd := "join" })
  else
    ((GroupMap.AddUser groups m.To m.User).1,
      { m with Msg := "Group " ++ m.To ++ " doesn't exist.", Cmd := "" })

/-- The `group` arm's response to the sender (no registry mutation). -/
def respGroup (groups : GroupMap) (m : Msg) : Msg :=
  if (GroupMap.ContainsUser groups m.To m.User).1 then
    { m with Cmd := "", Msg := "[" ++ m.To ++ "] " ++ m.User ++ ": " ++ m.Msg }
  else if (GroupMap.ContainsUser groups m.To m.User).2 then
    { m with Cmd := "", Msg := "You don't have access to group " ++ m.To ++ "!" }
  else
    { m with Cmd := "", Msg := "Group " ++ m.To ++ " doesn't exist." }

/-- The `leave` arm: registry update and response to the sender. -/
def respLeave (groups : GroupMap) (m : Msg) : GroupMap × Msg :=
  if (GroupMap.RemoveUser groups m.To m.User).2 then
    ((GroupMap.RemoveUser groups m.To m.User).1,
      { m with Msg := "You have left the group " ++ m.To ++ ".", Cmd := "leave" })
  else
    ((GroupMap.RemoveUser groups m.To m.User).1,
      { m with Msg := "Group " ++ m.To ++ " doesn't exist.", Cmd := "" })

/-- The `create` arm: registry update (create then auto-add the owner) and
response to the sender. -/
def respCreate (groups : GroupMap) (m : Msg) : GroupMap × Msg :=
  if (GroupMap.Create groups m.To m.User).2 then
    ((GroupMap.AddUser (GroupMap.Create groups m.To m.User).1 m.To m.User).1,
      { m with Msg := "You created the group " ++ m.To ++ "!", Cmd := "create" })
  else
    ((GroupMap.Create groups m.To m.User).1,
      { m with Msg := "Group " ++ m.To ++ " already exists!", Cmd := "" })

/-- The `delete` arm: registry update and response to the sender. -/
def respDelete (groups : GroupMap) (m : Msg) : GroupMap × Msg :=
  match GroupMap.Get groups m.To with
  | some grp =>
    if grp.Owner == m.User then
      ((GroupMap.Delete groups m.To).1,
        { m with Msg := "You deleted the group " ++ m.To ++ "!", Cmd := "delete" })
    else
      (groups, { m with Cmd := "", Msg := "You don't have permission to delete the group " ++ m.To ++ "!" })
  | none =>
    (groups, { m with Msg := "Group " ++ m.To ++ " doesn't exist!", Cmd := "" })

/-- The `kick` arm: registry update and the response sent to the sender, if
any (the success path leaves the response body empty so nothing is sent). -/
def respKick (groups : GroupMap) (m : Msg) : GroupMap × Option Msg :=
  match GroupMap.Get groups m.To with
  | some grp =>
    if grp.Owner == m.User then
      if (GroupMap.RemoveUser groups m.To m.Msg).2 then
        ((GroupMap.RemoveUser groups m.To m.Msg).1, none)
      else
        ((GroupMap.RemoveUser groups m.To m.Msg).1,
          some { m with Cmd := "", Msg := "User " ++ m.Msg ++ " isn't in the group " ++ m.To ++ "." })
    else
      (groups,
        some { m with Cmd := "", Msg := "You don't have permission to remove users from group " ++ m.To ++ "!" })
  | none =>
    (groups, some { m with Msg := "Group " ++ m.To ++ " doesn't exist!", Cmd := "" })

/-- A record whose command field is empty triggers no cache-update rule. -/
theorem HandleResponse_empty_cmd (self : String) (cache : GroupMap) (r : Msg)
    (h : r.Cmd = "") : (HandleResponse self cache r).1 = cache := by
  by_cases hu : r.User = self
  · simp [HandleResponse, hu, h]
  · simp [HandleResponse, hu, h]

end Gochat

namespace Gochat

/-- C9: every error-notice response of the `join`, `group`, `leave`,
`create`, `delete` and `kick` arms carries an empty command field, an
empty-command record triggers no cache-update rule in the client, and hence
none of these notices mutates the client's local group cache. -/
theorem error_notices_no_cache_mutation (groups cache : GroupMap) (self : String) :
    (∀ r : Msg, r.Cmd = "" → (HandleResponse self cache r).1 = cache) ∧
    (∀ m : Msg, (GroupMap.AddUser groups m.To m.User).2 = false →
      (respJoin groups m).2.Cmd = "" ∧
      (HandleResponse self cache (respJoin groups m).2).1 = cache) ∧
    (∀ m : Msg, (respGroup groups m).Cmd = "" ∧
      (HandleResponse self cache (respGroup groups m)).1 = cache) ∧
    (∀ m : Msg, (GroupMap.RemoveUser groups m.To m.User).2 = false →
      (respLeave groups m).2.Cmd = "" ∧
      (HandleResponse self cache (respLeave groups m).2).1 = cache) ∧
    (∀ m : Msg, (GroupMap.Create groups m.To m.User).2 = false →
      (respCreate groups m).2.Cmd = "" ∧
      (HandleResponse self cache (respCreate groups m).2).1 = cache) ∧
    (∀ m : Msg, (GroupMap.Get groups m.To = none ∨
        (∃ grp, GroupMap.Get groups m.To = some grp ∧ grp.Owner ≠ m.User)) →
      (respDelete groups m).2.Cmd = "" ∧
      (HandleResponse self cache (respDelete groups m).2).1 = cache) ∧
    (∀ m r : Msg, (respKick groups m).2 = some r →
      r.Cmd = "" ∧ (HandleResponse self cache r).1 = cache) := by
  refine ⟨fun r h => HandleResponse_empty_cmd self cache r h, ?_, ?_, ?_, ?_, ?_, ?_⟩
  · intro m hj
    have hcmd : (respJoin groups m).2.Cmd = "" := by simp [respJoin, hj]
    exact ⟨hcmd, HandleResponse_empty_cmd self cache _ hcmd⟩
  · intro m
    have hcmd : (respGroup groups m).Cmd = "" := by
      cases h1 : (GroupMap.ContainsUser groups m.To m.User).1 <;>
        cases h2 : (GroupMap.ContainsUser groups m.To m.User).2 <;>
          simp [respGroup, h1, h2]
    exact ⟨hcmd, HandleResponse_empty_cmd self cache _ hcmd⟩
  · intro m hl
    have hcmd : (respLeave groups m).2.Cmd = "" := by simp [respLeave, hl]
    exact ⟨hcmd, HandleResponse_empty_cmd self cache _ hcmd⟩
  · intro m hc
    have hcmd : (respCreate groups m).2.Cmd = "" := by simp [respCreate, hc]
    exact ⟨hcmd, HandleResponse_empty_cmd self cache _ hcmd⟩
  · intro m hd
    have hcmd : (respDelete groups m).2.Cmd = "" := by
      rcases hd with hd | ⟨grp, hg, howner⟩
      · simp [respDelete, hd]
      · simp [respDelete, hg, howner]
    exact ⟨hcmd, HandleResponse_empty_cmd self cache _ hcmd⟩
  · intro m r hr
    have hcmd : r.Cmd = "" := by
      cases hg : GroupMap.Get groups m.To with
      | none =>
        have hrk : (respKick groups m).2 =
            some { m with Cmd := "", Msg := "Group " ++ m.To ++ " doesn't exist!" } := by
          simp [respKick, hg]
        rw [hrk] at hr
        rw [← Option.some.inj hr]
      | some grp =>
        by_cases howner : grp.Owner = m.User
        · cases hrem : (GroupMap.RemoveUser groups m.To m.Msg).2 with
          | true =>
            have hrk : (respKick groups m).2 = none := by
              simp [respKick, hg, howner, hrem]
            rw [hrk] at hr
            exact absurd hr (by simp)
          | false =>
            have hrk : (respKick groups m).2 = some { m with Cmd := "", Msg := "User " ++ m.Msg ++ " isn't in the group " ++ m.To ++ "." } := by
              simp [respKick, hg, howner, hrem]
            rw [hrk] at hr
            rw [← Option.some.inj hr]
        · have hrk : (respKick groups m).2 = some { m with Cmd := "", Msg := "You don't have permission to remove users from group " ++ m.To ++ "!" } := by
            simp [respKick, hg, howner]
          rw [hrk] at hr
          rw [← Option.some.inj hr]
    exact ⟨hcmd, HandleResponse_empty_cmd self cache r hcmd⟩

/-- Witness for C9: a failed `join` (missing group) at a concrete state. -/
theorem error_notices_no_cache_mutation_witness :
    (respJoin [("g", ⟨"alice", []⟩)] ⟨"a", "h", "", "join"⟩).2.Cmd = "" ∧
    (HandleResponse "a" [("x", ⟨"", ["a"]⟩)]
      (respJoin [("g", ⟨"alice", []⟩)] ⟨"a", "h", "", "join"⟩).2).1 =
      [("x", ⟨"", ["a"]⟩)] :=
  (error_notices_no_cache_mutation [("g", ⟨"alice", []⟩)] [("x", ⟨"", ["a"]⟩)] "a").2.1
    ⟨"a", "h", "", "join"⟩ rfl

end Gochat

namespace Gochat

/-! Client-side command parsing and destination (clnt/clnt.go,
`Client.HandleRequest`). -/

/-- The argument-assembly part of `Client.HandleRequest`: whitespace-split
input becomes (command, target, rest-of-line), with everything after the
second token joined into the body. -/
def HandleRequestParse (username : String) (args : List String) : Option Msg :=
  match args with
  | [] => none
  | [c] => some ⟨username, "", "", c⟩
  | [c, t] => some ⟨username, t, "", c⟩
  | [c, t, b] => some ⟨username, t, b, c⟩
  | c :: t :: rest => some ⟨username, t, String.intercalate " " rest, c⟩

/-- The commands `Client.HandleRequest` sends over the wire. -/
def wireCommands : List String :=
  ["join", "dm", "leave", "create", "delete", "group", "kick"]

/-- The address `Client.HandleRequest` passes to `Msg.Send` for a wire
command: the string literal "localhost:8080", independent of the address the
client connected to (which `Client` does not even store). -/
def HandleRequestDest (m : Msg) : Option String :=
  if m.Cmd == "join" || m.Cmd == "dm" || m.Cmd == "leave" || m.Cmd == "create" ||
      m.Cmd == "delete" || m.Cmd == "group" || m.Cmd == "kick" then
    some "localhost:8080"
  else none

/-- C4 (refuted — code bug): a client that connected to "192.168.1.5:9000"
and types "join g" has the command sent to the hardcoded "localhost:8080",
not to the connect-time server address. -/
theorem HandleRequestDest_hardcoded :
    HandleRequestParse "alice" ["join", "g"] = some ⟨"alice", "g", "", "join"⟩ ∧
    HandleRequestDest ⟨"alice", "g", "", "join"⟩ = some "localhost:8080" ∧
    HandleRequestDest ⟨"alice", "g", "", "join"⟩ ≠ some "192.168.1.5:9000" := by
  refine ⟨rfl, rfl, by decide⟩

end Gochat
